import Mathlib

/-!
Shallow embedding of `src/research-agent-mvp.py` (class `ResearchAgent`).

The Python program talks to three external capabilities: an HTTP search API,
HTTP page fetches, and a chat-completion API.  These are modelled as oracle
functions collected in a `World` value; the agent's optional credentials are a
pair of `Option String` fields.  All functions are computable and use
structural recursion so concrete runs evaluate inside the kernel.
-/

namespace ResearchMVP

/-- Whitespace as recognised by Python's `str.split()` (ASCII part:
space, tab, newline, carriage return, vertical tab, form feed). -/
def isWS (c : Char) : Bool :=
  c = ' ' || c = '\t' || c = '\n' || c = '\r' || c = Char.ofNat 11 || c = Char.ofNat 12

/-- Fuelled worker for `words`: splits a character list into maximal runs of
non-whitespace characters, exactly as Python's `str.split()` does.  The fuel
argument only serves structural recursion; `words` supplies enough fuel. -/
def wordsAux : Nat → List Char → List (List Char)
  | 0, _ => []
  | _ + 1, [] => []
  | fuel + 1, c :: rest =>
    if isWS c then wordsAux fuel rest
    else (c :: rest.takeWhile (fun x => !isWS x)) :: wordsAux fuel (rest.dropWhile (fun x => !isWS x))

/-- `l.split()` in Python: the list of maximal non-whitespace runs. -/
def words (l : List Char) : List (List Char) := wordsAux l.length l

/-- Join word lists with single spaces: `' '.join(ws)`. -/
def joinSp : List (List Char) → List Char
  | [] => []
  | [w] => w
  | w :: ws => w ++ ' ' :: joinSp ws

/-- `' '.join(s.split())` on character lists: collapses every whitespace run
to a single space and strips the ends. -/
def collapse (l : List Char) : List Char := joinSp (words l)

/-- Python `s.strip()`: remove leading and trailing whitespace. -/
def trimL (l : List Char) : List Char :=
  ((l.dropWhile isWS).reverse.dropWhile isWS).reverse

/-- Worker for `netloc`: find the first `//` and keep everything up to the
next `/`, `?` or `#` — models `urlparse(url).netloc`. -/
def netlocAux : List Char → List Char
  | '/' :: '/' :: rest => rest.takeWhile (fun c => !(c = '/' || c = '?' || c = '#'))
  | _ :: rest => netlocAux rest
  | [] => []

/-- `urlparse(url).netloc` — the host-name part of a URL. -/
def netloc (url : String) : String := String.mk (netlocAux url.data)

/-- Decimal digit character, `chr(48 + d)`. -/
def digitChar (d : Nat) : Char := Char.ofNat (48 + d)

/-- Fuelled decimal-digit accumulator for `natRepr`.  With fuel `n + 1` the
fuel never runs out, since each step divides `n` by 10. -/
def decDigits : Nat → Nat → List Char → List Char
  | 0, _, acc => acc
  | fuel + 1, n, acc =>
    if n < 10 then digitChar n :: acc
    else decDigits fuel (n / 10) (digitChar (n % 10) :: acc)

/-- Python `str(n)` for a natural number: its decimal representation. -/
def natRepr (n : Nat) : String := String.mk (decDigits (n + 1) n [])

/-- One parsed HTML element, flattened: tag name, `class` attribute tokens,
and the text `get_text` would return for it.  `find_all` traverses elements
in document order, which the list order models. -/
structure Element where
  tag : String
  classes : List String
  text : String
deriving DecidableEq

/-- A fetched-and-parsed page: the text of its `<title>` element (if any) and
the element list `BeautifulSoup` exposes. -/
structure HtmlPage where
  titleText : Option String
  body : List Element
deriving DecidableEq

/-- Result of `requests.get` + `raise_for_status` + parsing for one URL:
either some exception (network error, timeout, non-2xx status, …) with its
`str(e)` message, or a parsed page. -/
inductive FetchOutcome where
  | failure (msg : String)
  | success (page : HtmlPage)
deriving DecidableEq

/-- One entry of the list `search_web` returns. -/
structure SearchResult where
  title : String
  url : String
  snippet : String
deriving DecidableEq

/-- One entry of the `sources` list built by `research` and consumed by
`generate_summary`. -/
structure Source where
  title : String
  url : String
  content : String
deriving DecidableEq

/-- The external world: the live search API (`none` = the request raised),
the page fetcher, and the chat-completion API (`none` = the call raised). -/
structure World where
  search : String → Option (List SearchResult)
  fetch : String → FetchOutcome
  llm : String → Option String

/-- The agent's configuration: the two optional API keys. -/
structure Agent where
  searchKey : Option String
  openaiKey : Option String

/-- `ResearchAgent.search_web`.  Live mode issues one request and maps
`organic_results[:num_results]` (missing JSON fields already defaulted in the
`World` data); any exception is reported and yields `[]`.  Without a key it
synthesises `min(3, num_results)` placeholder results. -/
def searchWeb (agent : Agent) (w : World) (query : String) (numResults : Nat) :
    List SearchResult :=
  match agent.searchKey with
  | some _ =>
    match w.search query with
    | some items => items.take numResults
    | none => []
  | none =>
    (List.range (min 3 numResults)).map (fun i =>
      { title := "Sample Result " ++ natRepr (i + 1) ++ " for: " ++ query
        url := "https://example" ++ natRepr (i + 1) ++ ".com/article"
        snippet := "This is a sample snippet about " ++ query ++ "..." })

/-- Tags removed by `element.decompose()` before content extraction. -/
def removedTags : List String := ["script", "style", "nav", "header", "footer"]

/-- The tag list of the `find_all` call selecting content containers. -/
def containerTags : List String := ["article", "main", "div"]

/-- The `class_` list of the `find_all` call selecting content containers. -/
def contentClasses : List String := ["content", "article-body", "post-content"]

/-- `soup.find_all(['article', 'main', 'div'], class_=['content',
'article-body', 'post-content'])` matches an element iff its tag is in the
tag list AND one of its classes is in the class list. -/
def matchesContent (e : Element) : Bool :=
  containerTags.contains e.tag && e.classes.any (fun c => contentClasses.contains c)

/-- `' '.join(texts)` over the `get_text` results of a list of elements. -/
def joinTexts : List Element → String
  | [] => ""
  | [e] => e.text
  | e :: es => e.text ++ " " ++ joinTexts es

/-- `ResearchAgent.extract_content`.  On any exception: `(netloc, error
string)`.  On success: title from `<title>` (stripped) or the host name,
content from the matching containers or else the first 20 paragraphs, then
whitespace-collapsed and truncated to 3000 characters. -/
def extractContent (fetch : String → FetchOutcome) (url : String) : String × String :=
  match fetch url with
  | .failure msg => (netloc url, "Error extracting content: " ++ msg)
  | .success page =>
    let titleText :=
      match page.titleText with
      | some t => String.mk (trimL t.data)
      | none => netloc url
    let soup := page.body.filter (fun e => !(removedTags.contains e.tag))
    let contentTags := soup.filter matchesContent
    let raw :=
      if contentTags.isEmpty then
        joinTexts ((soup.filter (fun e => e.tag = "p")).take 20)
      else
        joinTexts contentTags
    (titleText, String.mk ((collapse raw.data).take 3000))

/-- The per-source block of the LLM prompt:
`"Source {i+1} ({title}):\n{content[:1000]}"`. -/
def sourceBlock (i : Nat) (s : Source) : String :=
  "Source " ++ natRepr (i + 1) ++ " (" ++ s.title ++ "):\n"
    ++ String.mk (s.content.data.take 1000)

/-- `"\n\n".join` of the numbered source blocks, starting at index `i`. -/
def combinedContent : Nat → List Source → String
  | _, [] => ""
  | i, [s] => sourceBlock i s
  | i, s :: rest => sourceBlock i s ++ "\n\n" ++ combinedContent (i + 1) rest

/-- The prompt handed to the completion API (whitespace of the Python
triple-quoted literal kept approximately; it is only consumed by the oracle). -/
def promptFor (sources : List Source) (query : String) : String :=
  "Based on the following sources about \"" ++ query
    ++ "\", create a concise summary.\nInclude inline citations using [Source N] format where N is the source number.\n\nSources:\n"
    ++ combinedContent 0 sources
    ++ "\n\nSummary (with citations):"

/-- One bullet of the offline fallback summary, for the source at 0-based
index `i` (the marker uses the 1-based index `i + 1`). -/
def bulletLine (query : String) (i : Nat) (s : Source) : String :=
  "‚Ä¢ " ++ s.title ++ " discusses aspects related to " ++ query
    ++ " [Source " ++ natRepr (i + 1) ++ "]\n"

/-- The bullet block of the offline summary: one line per source, indices
counting up from `i`. -/
def bulletLines (query : String) : Nat → List Source → String
  | _, [] => ""
  | i, s :: rest => bulletLine query i s ++ bulletLines query (i + 1) rest

/-- The deterministic fallback summary built when no completion API is used. -/
def offlineSummary (sources : List Source) (query : String) : String :=
  "Based on the search for '" ++ query ++ "', here are the key findings:\n\n"
    ++ bulletLines query 0 sources
    ++ "\nThese sources provide various perspectives on " ++ query ++ "."

/-- `ResearchAgent.generate_summary`.  Empty sources short-circuit to a fixed
message.  With a completion key the oracle's answer is returned verbatim; if
the call raises, control falls through to the offline fallback, which is also
used when no key is present. -/
def generateSummary (agent : Agent) (w : World) (sources : List Source)
    (query : String) : String :=
  if sources.isEmpty then "No content available to summarize."
  else
    match agent.openaiKey with
    | some _ =>
      match w.llm (promptFor sources query) with
      | some out => out
      | none => offlineSummary sources query
    | none => offlineSummary sources query

/-- The dictionary `research` returns. -/
structure ResearchOutcome where
  summary : String
  sources : List Source
deriving DecidableEq

/-- The `sources.append({...})` body of the extraction loop: build one
`Source` from one `SearchResult` (`title or result['title']` falls back on
the empty string). -/
def mkSource (fetch : String → FetchOutcome) (r : SearchResult) : Source :=
  let tc := extractContent fetch r.url
  { title := if tc.1 = "" then r.title else tc.1
    url := r.url
    content := tc.2 }

/-- `ResearchAgent.research`: search with `num_results=3`, early-exit on an
empty result list, extract each result in order (the `time.sleep(0.5)`
politeness delay has no effect on the returned value), then summarize. -/
def research (agent : Agent) (w : World) (query : String) : ResearchOutcome :=
  let searchResults := searchWeb agent w query 3
  if searchResults.isEmpty then
    { summary := "No search results found.", sources := [] }
  else
    let sources := searchResults.foldl (fun acc r => acc ++ [mkSource w.fetch r]) []
    { summary := generateSummary agent w sources query, sources := sources }

/-! ### Citation-marker scanner (specification vocabulary)

A citation marker is an occurrence of the literal text `[Source ` followed by
one or more decimal digits and `]`.  `markers` returns the digit strings of
all markers in scan order; it is the formal reading of "citation marker
`[Source N]` appearing in the text". -/

/-- The opening text of a citation marker. -/
def srcPat : List Char := ['[', 'S', 'o', 'u', 'r', 'c', 'e', ' ']

/-- Prefix test on character lists. -/
def isPrefixL : List Char → List Char → Bool
  | [], _ => true
  | _ :: _, [] => false
  | a :: as, b :: bs => a == b && isPrefixL as bs

/-- If a citation marker starts at the head of `l`, return its digit string. -/
def markerAt (l : List Char) : Option (List Char) :=
  if isPrefixL srcPat l then
    let rest := l.drop 8
    let ds := rest.takeWhile Char.isDigit
    match rest.dropWhile Char.isDigit with
    | ']' :: _ => if ds.isEmpty then none else some ds
    | _ => none
  else none

/-- All citation markers of a text, in order, as digit strings. -/
def markers : List Char → List (List Char)
  | [] => []
  | c :: rest =>
    match markerAt (c :: rest) with
    | some ds => ds :: markers rest
    | none => markers rest

/-- Substring test on character lists. -/
def hasSub (pat : List Char) : List Char → Bool
  | [] => pat.isEmpty
  | c :: rest => isPrefixL pat (c :: rest) || hasSub pat rest

/-- No two consecutive whitespace characters. -/
def NoDoubleWS (l : List Char) : Prop :=
  l.Chain' (fun a b => ¬(isWS a = true ∧ isWS b = true))

/-- Executable check for `NoDoubleWS`. -/
def noDblB : List Char → Bool
  | [] => true
  | [_] => true
  | a :: b :: rest => !(isWS a && isWS b) && noDblB (b :: rest)

theorem noDblB_iff : ∀ l : List Char, noDblB l = true ↔ NoDoubleWS l := by
  intro l
  induction l with
  | nil => simp [noDblB, NoDoubleWS]
  | cons a tail ih =>
    cases tail with
    | nil => simp [noDblB, NoDoubleWS]
    | cons b rest =>
      rw [noDblB, NoDoubleWS, List.chain'_cons]
      rw [NoDoubleWS] at ih
      simp only [Bool.and_eq_true, Bool.not_eq_true', Bool.and_eq_false_iff] at *
      constructor
      · intro hx
        refine ⟨?_, ih.1 hx.2⟩
        intro hcon
        rcases hx.1 with h | h
        · rw [hcon.1] at h; simp at h
        · rw [hcon.2] at h; simp at h
      · intro hx
        refine ⟨?_, ih.2 hx.2⟩
        by_cases ha : isWS a = true
        · by_cases hb : isWS b = true
          · exact absurd ⟨ha, hb⟩ hx.1
          · right; simpa using hb
        · left; simpa using ha

instance (l : List Char) : Decidable (NoDoubleWS l) :=
  decidable_of_iff (noDblB l = true) (noDblB_iff l)

/-! ### Basic string and list helper lemmas -/

theorem data_mk (l : List Char) : (String.mk l).data = l := rfl

theorem data_append (s t : String) : (s ++ t).data = s.data ++ t.data := rfl

theorem isPrefixL_self_append (pat y : List Char) : isPrefixL pat (pat ++ y) = true := by
  induction pat with
  | nil => rfl
  | cons a as ih => simp [isPrefixL, ih]

theorem hasSub_decomp (pat x y : List Char) : hasSub pat (x ++ (pat ++ y)) = true := by
  induction x with
  | nil =>
    rw [List.nil_append]
    cases pat with
    | nil =>
      cases y with
      | nil => rfl
      | cons c rest => simp [hasSub, isPrefixL]
    | cons a as =>
      rw [List.cons_append]
      simp only [hasSub]
      have := isPrefixL_self_append (a :: as) y
      rw [List.cons_append] at this
      simp [this]
  | cons c x ih =>
    rw [List.cons_append]
    simp [hasSub, ih]

/-! ### Lemmas about the citation-marker scanner -/

theorem markerAt_none {c : Char} (rest : List Char) (h : c ≠ '[') :
    markerAt (c :: rest) = none := by
  have h1 : ('[' == c) = false := by
    simp only [beq_eq_false_iff_ne, ne_eq]
    exact fun e => h e.symm
  simp [markerAt, srcPat, isPrefixL, h1]

theorem markers_cons_skip {c : Char} (l : List Char) (h : c ≠ '[') :
    markers (c :: l) = markers l := by
  rw [markers, markerAt_none l h]

theorem markers_append_skip (a b : List Char) (h : '[' ∉ a) :
    markers (a ++ b) = markers b := by
  induction a with
  | nil => rfl
  | cons c rest ih =>
    rw [List.mem_cons] at h
    push_neg at h
    rw [List.cons_append, markers_cons_skip _ (Ne.symm h.1), ih h.2]

theorem markers_eq_nil (l : List Char) (h : '[' ∉ l) : markers l = [] := by
  have := markers_append_skip l [] h
  simpa using this

theorem markers_pat (ds rest : List Char) (hne : ds ≠ [])
    (hdig : ∀ c ∈ ds, c.isDigit = true) :
    markers ('[' :: 'S' :: 'o' :: 'u' :: 'r' :: 'c' :: 'e' :: ' ' :: (ds ++ ']' :: rest))
      = ds :: markers rest := by
  have htake : (ds ++ ']' :: rest).takeWhile Char.isDigit = ds := by
    rw [List.takeWhile_append_of_pos hdig]
    simp [List.takeWhile]
  have hdropw : (ds ++ ']' :: rest).dropWhile Char.isDigit = ']' :: rest := by
    rw [List.dropWhile_append_of_pos hdig]
    simp [List.dropWhile]
  have hAt : markerAt ('[' :: 'S' :: 'o' :: 'u' :: 'r' :: 'c' :: 'e' :: ' '
      :: (ds ++ ']' :: rest)) = some ds := by
    simp [markerAt, srcPat, isPrefixL, htake, hdropw, hne]
  rw [markers, hAt]
  have hdsnb : '[' ∉ ds := by
    intro hm
    have := hdig '[' hm
    exact absurd this (by decide)
  have hshape : ('S' :: 'o' :: 'u' :: 'r' :: 'c' :: 'e' :: ' ' :: (ds ++ ']' :: rest))
      = (['S', 'o', 'u', 'r', 'c', 'e', ' '] ++ (ds ++ [']'])) ++ rest := by
    simp
  have hnb : '[' ∉ ['S', 'o', 'u', 'r', 'c', 'e', ' '] ++ (ds ++ [']']) := by
    intro hm
    rcases List.mem_append.mp hm with hm | hm
    · exact absurd hm (by decide)
    · rcases List.mem_append.mp hm with hm | hm
      · exact hdsnb hm
      · exact absurd hm (by decide)
  rw [hshape, markers_append_skip _ _ hnb]

/-! ### Lemmas about whitespace collapsing -/

theorem mem_wordsAux (fuel : Nat) :
    ∀ (l : List Char), ∀ w ∈ wordsAux fuel l, w ≠ [] ∧ ∀ c ∈ w, isWS c = false := by
  induction fuel with
  | zero => intro l w hw; simp [wordsAux] at hw
  | succ fuel ih =>
    intro l w hw
    match l with
    | [] => simp [wordsAux] at hw
    | c :: rest =>
      rw [wordsAux] at hw
      cases hws : isWS c with
      | true => rw [hws] at hw; simp only [if_true] at hw; exact ih rest w hw
      | false =>
        rw [hws] at hw
        simp only [Bool.false_eq_true, if_false] at hw
        rcases List.mem_cons.mp hw with h | h
        · subst h
          refine ⟨by simp, ?_⟩
          intro x hx
          rcases List.mem_cons.mp hx with rfl | hx
          · exact hws
          · have := List.mem_takeWhile_imp hx
            simpa using this
        · exact ih _ w h

theorem mem_words (l : List Char) : ∀ w ∈ words l, w ≠ [] ∧ ∀ c ∈ w, isWS c = false :=
  mem_wordsAux l.length l

theorem noDouble_of_all_nonWS (w : List Char) (h : ∀ c ∈ w, isWS c = false) :
    NoDoubleWS w := by
  induction w with
  | nil => exact List.chain'_nil
  | cons c w ih =>
    rw [NoDoubleWS, List.chain'_cons']
    constructor
    · intro y _hy hcontra
      have hc := h c (List.mem_cons_self c w)
      rw [hc] at hcontra
      exact absurd hcontra.1 (by simp)
    · exact ih fun x hx => h x (List.mem_cons_of_mem _ hx)

theorem head_joinSp_nonWS :
    ∀ (ws : List (List Char)), (∀ w ∈ ws, w ≠ [] ∧ ∀ c ∈ w, isWS c = false) →
      ∀ c ∈ (joinSp ws).head?, isWS c = false := by
  intro ws
  match ws with
  | [] => intro _h c hc; simp [joinSp] at hc
  | [w] =>
    intro h c hc
    exact (h w (by simp)).2 c (List.mem_of_mem_head? hc)
  | w :: w' :: rest =>
    intro h c hc
    have hj : joinSp (w :: w' :: rest) = w ++ ' ' :: joinSp (w' :: rest) := rfl
    rw [hj] at hc
    have hw := h w (by simp)
    cases w with
    | nil => exact absurd rfl hw.1
    | cons a as =>
      have hor : ((a :: as) ++ ' ' :: joinSp (w' :: rest)).head? = some a := rfl
      rw [hor] at hc
      have hac : a = c := by
        rw [Option.mem_def, Option.some.injEq] at hc
        exact hc
      subst hac
      exact hw.2 a (by simp)

theorem noDouble_joinSp :
    ∀ (ws : List (List Char)), (∀ w ∈ ws, w ≠ [] ∧ ∀ c ∈ w, isWS c = false) →
      NoDoubleWS (joinSp ws) := by
  intro ws
  induction ws with
  | nil => intro _h; exact List.chain'_nil
  | cons w tail ih =>
    intro h
    cases tail with
    | nil => exact noDouble_of_all_nonWS w (h w (by simp)).2
    | cons w' rest =>
      have hj : joinSp (w :: w' :: rest) = w ++ ' ' :: joinSp (w' :: rest) := rfl
      rw [hj]
      have hw := h w (by simp)
      have hrest : ∀ u ∈ w' :: rest, u ≠ [] ∧ ∀ c ∈ u, isWS c = false :=
        fun u hu => h u (List.mem_cons_of_mem _ hu)
      have ihrest : NoDoubleWS (joinSp (w' :: rest)) := ih hrest
      rw [NoDoubleWS, List.chain'_append]
      refine ⟨noDouble_of_all_nonWS w hw.2, ?_, ?_⟩
      · rw [List.chain'_cons']
        refine ⟨?_, ihrest⟩
        intro y hy hcontra
        have hyf : isWS y = false := head_joinSp_nonWS _ hrest y hy
        rw [hyf] at hcontra
        exact absurd hcontra.2 (by simp)
      · intro x hx y hy hcontra
        have hxf : isWS x = false := hw.2 x (List.mem_of_mem_getLast? hx)
        rw [hxf] at hcontra
        exact absurd hcontra.1 (by simp)

theorem noDouble_collapse (l : List Char) : NoDoubleWS (collapse l) :=
  noDouble_joinSp (words l) (mem_words l)

theorem noDouble_take (l : List Char) (n : Nat) (h : NoDoubleWS l) :
    NoDoubleWS (l.take n) :=
  List.Chain'.take h n

/-! ### Lemmas about the decimal representation -/

theorem digitChar_isDigit (d : Nat) (h : d < 10) : (digitChar d).isDigit = true := by
  interval_cases d <;> decide

theorem decDigits_mem (fuel : Nat) :
    ∀ (n : Nat) (acc : List Char), ∀ c ∈ decDigits fuel n acc, c ∈ acc ∨ c.isDigit = true := by
  induction fuel with
  | zero => intro n acc c hc; exact Or.inl hc
  | succ fuel ih =>
    intro n acc c hc
    rw [decDigits] at hc
    by_cases h10 : n < 10
    · rw [if_pos h10] at hc
      rcases List.mem_cons.mp hc with rfl | hc
      · exact Or.inr (digitChar_isDigit n h10)
      · exact Or.inl hc
    · rw [if_neg h10] at hc
      rcases ih _ _ c hc with hacc | hd
      · rcases List.mem_cons.mp hacc with rfl | hm
        · exact Or.inr (digitChar_isDigit _ (Nat.mod_lt n (by omega)))
        · exact Or.inl hm
      · exact Or.inr hd

theorem decDigits_length (fuel : Nat) :
    ∀ (n : Nat) (acc : List Char), acc.length ≤ (decDigits fuel n acc).length := by
  induction fuel with
  | zero => intro n acc; simp [decDigits]
  | succ fuel ih =>
    intro n acc
    rw [decDigits]
    by_cases h10 : n < 10
    · rw [if_pos h10]; simp
    · rw [if_neg h10]
      calc acc.length ≤ (digitChar (n % 10) :: acc).length := by simp
        _ ≤ _ := ih _ _

theorem natRepr_digits (n : Nat) : ∀ c ∈ (natRepr n).data, c.isDigit = true := by
  intro c hc
  rw [natRepr, data_mk] at hc
  rcases decDigits_mem _ _ _ c hc with h | h
  · simp at h
  · exact h

theorem natRepr_ne_nil (n : Nat) : (natRepr n).data ≠ [] := by
  rw [natRepr, data_mk, decDigits]
  by_cases h10 : n < 10
  · rw [if_pos h10]; simp
  · rw [if_neg h10]
    intro hc
    have h1 : (1 : Nat) ≤ (decDigits n (n / 10) [digitChar (n % 10)]).length := by
      have := decDigits_length n (n / 10) [digitChar (n % 10)]
      simpa using this
    rw [hc] at h1
    simp at h1

theorem natRepr_no_bracket (n : Nat) : '[' ∉ (natRepr n).data := by
  intro hm
  have := natRepr_digits n '[' hm
  exact absurd this (by decide)

/-! ### Markers of the offline fallback summary -/

theorem range_natRepr_shift (n k : Nat) :
    (List.range (n + 1)).map (fun j => (natRepr (k + j + 1)).data)
      = (natRepr (k + 1)).data
        :: (List.range n).map (fun j => (natRepr (k + 1 + j + 1)).data) := by
  rw [List.range_succ_eq_map, List.map_cons, List.map_map]
  congr 1
  apply List.map_congr_left
  intro j _
  simp only [Function.comp]
  exact congrArg (fun m => (natRepr m).data) (by omega)

theorem markers_bulletLines (query : String) (hq : '[' ∉ query.data) :
    ∀ (srcs : List Source) (k : Nat) (rest : List Char),
      (∀ s ∈ srcs, '[' ∉ s.title.data) →
      markers ((bulletLines query k srcs).data ++ rest)
        = (List.range srcs.length).map (fun j => (natRepr (k + j + 1)).data)
            ++ markers rest := by
  intro srcs
  induction srcs with
  | nil =>
    intro k rest _ht
    have hz : (bulletLines query k []).data ++ rest = rest := rfl
    rw [hz]
    simp
  | cons s tl ih =>
    intro k rest ht
    have hs : '[' ∉ s.title.data := ht s (by simp)
    have htl : ∀ u ∈ tl, '[' ∉ u.title.data := fun u hu => ht u (by simp [hu])
    have hb : bulletLines query k (s :: tl)
        = bulletLine query k s ++ bulletLines query (k + 1) tl := rfl
    rw [hb]
    simp only [bulletLine, data_append, List.append_assoc]
    have e1 : ∀ X : List Char, " [Source ".data ++ X
        = ' ' :: '[' :: 'S' :: 'o' :: 'u' :: 'r' :: 'c' :: 'e' :: ' ' :: X := fun _ => rfl
    have e2 : ∀ X : List Char, "]\n".data ++ X = ']' :: '\n' :: X := fun _ => rfl
    rw [e1, e2]
    rw [markers_append_skip "‚Ä¢ ".data _ (by decide),
      markers_append_skip s.title.data _ hs,
      markers_append_skip " discusses aspects related to ".data _ (by decide),
      markers_append_skip query.data _ hq,
      markers_cons_skip _ (show (' ' : Char) ≠ '[' by decide),
      markers_pat _ _ (natRepr_ne_nil (k + 1)) (natRepr_digits (k + 1)),
      markers_cons_skip _ (show ('\n' : Char) ≠ '[' by decide),
      ih (k + 1) rest htl]
    rw [List.length_cons, range_natRepr_shift tl.length k]
    simp

theorem markers_offlineSummary (sources : List Source) (query : String)
    (hq : '[' ∉ query.data) (ht : ∀ s ∈ sources, '[' ∉ s.title.data) :
    markers (offlineSummary sources query).data
      = (List.range sources.length).map (fun j => (natRepr (j + 1)).data) := by
  simp only [offlineSummary, data_append, List.append_assoc]
  rw [markers_append_skip "Based on the search for '".data _ (by decide),
    markers_append_skip query.data _ hq,
    markers_append_skip "', here are the key findings:\n\n".data _ (by decide),
    markers_bulletLines query hq sources 0 _ ht,
    markers_append_skip "\nThese sources provide various perspectives on ".data _ (by decide),
    markers_append_skip query.data _ hq,
    markers_eq_nil ".".data (by decide)]
  simp only [List.append_nil]
  apply List.map_congr_left
  intro j _
  exact congrArg (fun m => (natRepr m).data) (by omega)

/-! ### Unfolding helpers for the pipeline -/

theorem generateSummary_no_key (agent : Agent) (w : World) (sources : List Source)
    (query : String) (hk : agent.openaiKey = none) (hne : sources ≠ []) :
    generateSummary agent w sources query = offlineSummary sources query := by
  unfold generateSummary
  rw [hk]
  have hie : sources.isEmpty = false := by rw [List.isEmpty_eq_false]; exact hne
  rw [hie]
  simp

theorem foldl_append_map (g : SearchResult → Source) :
    ∀ (l : List SearchResult) (acc : List Source),
      l.foldl (fun acc r => acc ++ [g r]) acc = acc ++ l.map g := by
  intro l
  induction l with
  | nil => intro acc; simp
  | cons r tl ih =>
    intro acc
    rw [List.foldl_cons, ih, List.map_cons]
    simp

theorem research_nonempty (agent : Agent) (w : World) (query : String)
    (h : searchWeb agent w query 3 ≠ []) :
    research agent w query =
      { summary := generateSummary agent w
          ((searchWeb agent w query 3).map (mkSource w.fetch)) query
        sources := (searchWeb agent w query 3).map (mkSource w.fetch) } := by
  unfold research
  have hie : (searchWeb agent w query 3).isEmpty = false := by
    rw [List.isEmpty_eq_false]; exact h
  simp only [hie, Bool.false_eq_true, if_false, foldl_append_map, List.nil_append]

theorem searchWeb_no_key (agent : Agent) (w : World) (query : String) (n : Nat)
    (hk : agent.searchKey = none) :
    searchWeb agent w query n = (List.range (min 3 n)).map (fun i =>
      { title := "Sample Result " ++ natRepr (i + 1) ++ " for: " ++ query
        url := "https://example" ++ natRepr (i + 1) ++ ".com/article"
        snippet := "This is a sample snippet about " ++ query ++ "..." }) := by
  unfold searchWeb
  rw [hk]

theorem searchWeb_offline_ne_nil (agent : Agent) (w : World) (query : String)
    (hk : agent.searchKey = none) : searchWeb agent w query 3 ≠ [] := by
  rw [searchWeb_no_key agent w query 3 hk]
  intro hc
  have := congrArg List.length hc
  simp at this

/-! ### Concrete worlds and pages used by witnesses and counterexamples -/

/-- A world in which every fetch fails and both APIs raise. -/
def downWorld : World :=
  { search := fun _ => none
    fetch := fun _ => FetchOutcome.failure "err"
    llm := fun _ => none }

/-- A world with the same fetch behaviour as `downWorld` but different
search and completion behaviour. -/
def downWorldAlt : World :=
  { search := fun _ => some [{ title := "t", url := "u", snippet := "s" }]
    fetch := fun _ => FetchOutcome.failure "err"
    llm := fun _ => some "model output" }

/-- A world whose live search succeeds with zero organic results. -/
def emptySearchWorld : World :=
  { search := fun _ => some []
    fetch := fun _ => FetchOutcome.failure "down"
    llm := fun _ => none }

/-- Same search behaviour as `emptySearchWorld`, different fetch and llm. -/
def emptySearchWorldAlt : World :=
  { search := fun _ => some []
    fetch := fun _ => FetchOutcome.success { titleText := none, body := [] }
    llm := fun _ => some "out" }

/-- A page with one paragraph whose text holds a double space. -/
def samplePage : HtmlPage :=
  { titleText := some "T"
    body := [{ tag := "p", classes := [], text := "a  b" }] }

/-! ### C2 — extract_content failure contract -/

/-- C2: `extract_content` is total (never raises), and whenever the fetch
pipeline fails with message `msg` it returns the URL's host name as title and
the non-empty content string `"Error extracting content: " ++ msg`. -/
theorem extractContent_failure_contract (fetch : String → FetchOutcome)
    (url msg : String) (h : fetch url = FetchOutcome.failure msg) :
    extractContent fetch url = (netloc url, "Error extracting content: " ++ msg)
      ∧ (extractContent fetch url).2.data ≠ [] := by
  have he : extractContent fetch url
      = (netloc url, "Error extracting content: " ++ msg) := by
    unfold extractContent
    rw [h]
  refine ⟨he, ?_⟩
  rw [he]
  show ("Error extracting content: " ++ msg).data ≠ []
  rw [data_append]
  intro hc
  rw [List.append_eq_nil] at hc
  exact absurd hc.1 (by decide)

theorem extractContent_failure_contract_w :
    (fun _ : String => FetchOutcome.failure "boom") "https://example.com/x"
        = FetchOutcome.failure "boom"
      ∧ extractContent (fun _ => FetchOutcome.failure "boom") "https://example.com/x"
        = (netloc "https://example.com/x", "Error extracting content: " ++ "boom") :=
  ⟨rfl, (extractContent_failure_contract _ "https://example.com/x" "boom" rfl).1⟩

/-! ### C3 — content cleanliness -/

/-- C3 as stated is false: on the failure branch the exception text is
embedded verbatim, so an error message with two consecutive spaces produces a
content string with a whitespace run of length two. -/
theorem extractContent_cex_c3 :
    ¬ NoDoubleWS ((extractContent
        (fun _ => FetchOutcome.failure "connection  refused")
        "https://a.com/b").2.data) := by
  decide

/-- C3 amended: on the success branch the content is whitespace-collapsed
and truncated, hence at most 3000 characters with no double-whitespace run
(the failure branch returns the raw error string instead). -/
theorem extractContent_success_clean (fetch : String → FetchOutcome) (url : String)
    (page : HtmlPage) (h : fetch url = FetchOutcome.success page) :
    (extractContent fetch url).2.data.length ≤ 3000
      ∧ NoDoubleWS (extractContent fetch url).2.data := by
  unfold extractContent
  rw [h]
  dsimp only [data_mk]
  constructor
  · simp only [List.length_take]
    omega
  · exact noDouble_take _ _ (noDouble_collapse _)

theorem extractContent_success_clean_w :
    (fun _ : String => FetchOutcome.success samplePage) "https://x.com/"
        = FetchOutcome.success samplePage
      ∧ (extractContent (fun _ => FetchOutcome.success samplePage)
          "https://x.com/").2.data.length ≤ 3000 :=
  ⟨rfl, (extractContent_success_clean _ "https://x.com/" samplePage rfl).1⟩

/-! ### C5 — offline search shape -/

/-- C5: with no search credential, `search_web` returns exactly
`min 3 num_results` placeholder results, and the 1-based i-th title contains
both the literal query text and the decimal index. -/
theorem searchWeb_offline_shape (agent : Agent) (w : World) (query : String)
    (n : Nat) (hk : agent.searchKey = none) :
    (searchWeb agent w query n).length = min 3 n
      ∧ ∀ i (h : i < (searchWeb agent w query n).length),
          ((searchWeb agent w query n).get ⟨i, h⟩).title
              = "Sample Result " ++ natRepr (i + 1) ++ " for: " ++ query
            ∧ hasSub query.data
                ((searchWeb agent w query n).get ⟨i, h⟩).title.data = true
            ∧ hasSub (natRepr (i + 1)).data
                ((searchWeb agent w query n).get ⟨i, h⟩).title.data = true := by
  rw [searchWeb_no_key agent w query n hk]
  constructor
  · simp
  · intro i h
    have hget : ((List.range (min 3 n)).map (fun i =>
        ({ title := "Sample Result " ++ natRepr (i + 1) ++ " for: " ++ query
           url := "https://example" ++ natRepr (i + 1) ++ ".com/article"
           snippet := "This is a sample snippet about " ++ query ++ "..." }
          : SearchResult))).get ⟨i, h⟩
        = { title := "Sample Result " ++ natRepr (i + 1) ++ " for: " ++ query
            url := "https://example" ++ natRepr (i + 1) ++ ".com/article"
            snippet := "This is a sample snippet about " ++ query ++ "..." } := by
      rw [List.get_eq_getElem]
      simp
    rw [hget]
    refine ⟨rfl, ?_, ?_⟩
    · have hd := hasSub_decomp query.data
        ("Sample Result " ++ natRepr (i + 1) ++ " for: ").data []
      have hsh : ("Sample Result " ++ natRepr (i + 1) ++ " for: ").data
            ++ (query.data ++ [])
          = ("Sample Result " ++ natRepr (i + 1) ++ " for: " ++ query).data := by
        simp [data_append]
      rw [hsh] at hd
      exact hd
    · have hd := hasSub_decomp (natRepr (i + 1)).data
        "Sample Result ".data (" for: " ++ query).data
      have hsh : "Sample Result ".data
            ++ ((natRepr (i + 1)).data ++ (" for: " ++ query).data)
          = ("Sample Result " ++ natRepr (i + 1) ++ " for: " ++ query).data := by
        simp [data_append]
      rw [hsh] at hd
      exact hd

theorem searchWeb_offline_shape_w :
    (⟨none, none⟩ : Agent).searchKey = none
      ∧ (searchWeb ⟨none, none⟩ downWorld "q" 5).length = min 3 5 :=
  ⟨rfl, (searchWeb_offline_shape ⟨none, none⟩ downWorld "q" 5 rfl).1⟩

/-! ### C4 — container selection heuristic -/

/-- Container selection as claim C4 words it: an element qualifies when it
is tagged `article`/`main` OR its class indicates content. -/
def specMatchesC4 (e : Element) : Bool :=
  (e.tag = "article" || e.tag = "main")
    || e.classes.any (fun c => contentClasses.contains c)

/-- `extract_content` as claim C4 describes it: identical to the code except
that container selection uses the OR-based rule `specMatchesC4`.  Used only
to exhibit where the claim and the code diverge. -/
def extractContentC4spec (fetch : String → FetchOutcome) (url : String) :
    String × String :=
  match fetch url with
  | .failure msg => (netloc url, "Error extracting content: " ++ msg)
  | .success page =>
    let titleText :=
      match page.titleText with
      | some t => String.mk (trimL t.data)
      | none => netloc url
    let soup := page.body.filter (fun e => !(removedTags.contains e.tag))
    let contentTags := soup.filter specMatchesC4
    let raw :=
      if contentTags.isEmpty then
        joinTexts ((soup.filter (fun e => e.tag = "p")).take 20)
      else
        joinTexts contentTags
    (titleText, String.mk ((collapse raw.data).take 3000))

/-- A page holding a bare `<article>` element (no content class) plus one
paragraph. -/
def articlePage : HtmlPage :=
  { titleText := none
    body := [{ tag := "article", classes := [], text := "A" },
             { tag := "p", classes := [], text := "P" }] }

/-- C4 as stated is false: `find_all(['article','main','div'],
class_=[...])` requires tag AND class, so a bare `<article>` element is
skipped and the paragraph fallback fires, while the claim's OR-rule would
select the article text. -/
theorem extractContent_cex_c4 :
    (extractContent (fun _ => FetchOutcome.success articlePage)
        "https://x.com/a").2 = "P"
      ∧ (extractContentC4spec (fun _ => FetchOutcome.success articlePage)
          "https://x.com/a").2 = "A"
      ∧ ("P" : String) ≠ "A" := by
  decide

/-- The matching condition of the code's `find_all` call, spelled out as a
proposition: tag among article/main/div AND some class among
content/article-body/post-content. -/
def IsContentMatch (e : Element) : Prop :=
  (e.tag = "article" ∨ e.tag = "main" ∨ e.tag = "div")
    ∧ ∃ c ∈ e.classes, c = "content" ∨ c = "article-body" ∨ c = "post-content"

instance (e : Element) : Decidable (IsContentMatch e) :=
  inferInstanceAs (Decidable (_ ∧ _))

theorem matchesContent_iff (e : Element) :
    matchesContent e = true ↔ IsContentMatch e := by
  unfold matchesContent IsContentMatch containerTags contentClasses
  simp [List.contains, List.elem_iff, List.any_eq_true]

theorem matchesContent_eq_decide (e : Element) :
    matchesContent e = decide (IsContentMatch e) := by
  by_cases hm : IsContentMatch e
  · rw [(matchesContent_iff e).2 hm]
    simp [hm]
  · have hne : matchesContent e = false :=
      Bool.not_eq_true _ ▸ (fun hc => hm ((matchesContent_iff e).1 hc))
    rw [hne]
    simp [hm]

/-- C4 amended: on a successfully fetched page, if some kept element has tag
in {article, main, div} AND a class in {content, article-body, post-content},
the content is built from the texts of exactly those elements; only when no
element satisfies both conditions does it fall back to the first 20
paragraphs. -/
theorem extractContent_selection (fetch : String → FetchOutcome) (url : String)
    (page : HtmlPage) (h : fetch url = FetchOutcome.success page) :
    ((∃ e ∈ page.body.filter (fun e => !(removedTags.contains e.tag)),
        IsContentMatch e) →
      (extractContent fetch url).2 = String.mk ((collapse (joinTexts
        ((page.body.filter (fun e => !(removedTags.contains e.tag))).filter
          (fun e => decide (IsContentMatch e)))).data).take 3000))
    ∧ ((∀ e ∈ page.body.filter (fun e => !(removedTags.contains e.tag)),
        ¬ IsContentMatch e) →
      (extractContent fetch url).2 = String.mk ((collapse (joinTexts
        (((page.body.filter (fun e => !(removedTags.contains e.tag))).filter
          (fun e => e.tag = "p")).take 20)).data).take 3000)) := by
  unfold extractContent
  rw [h]
  dsimp only
  have hfe : (page.body.filter (fun e => !(removedTags.contains e.tag))).filter
        matchesContent
      = (page.body.filter (fun e => !(removedTags.contains e.tag))).filter
        (fun e => decide (IsContentMatch e)) :=
    List.filter_congr (fun e _ => matchesContent_eq_decide e)
  constructor
  · intro hex
    have hne : (page.body.filter
        (fun e => !(removedTags.contains e.tag))).filter matchesContent ≠ [] := by
      rw [hfe]
      intro hc
      rw [List.filter_eq_nil_iff] at hc
      obtain ⟨e, he, hm⟩ := hex
      exact hc e he (by simpa using hm)
    have hie : ((page.body.filter
        (fun e => !(removedTags.contains e.tag))).filter matchesContent).isEmpty
        = false := by
      rw [List.isEmpty_eq_false]
      exact hne
    rw [hie]
    simp only [Bool.false_eq_true, if_false]
    rw [hfe]
  · intro hall
    have hnil : (page.body.filter
        (fun e => !(removedTags.contains e.tag))).filter matchesContent = [] := by
      rw [List.filter_eq_nil_iff]
      intro e he hm
      exact hall e he ((matchesContent_iff e).1 hm)
    rw [hnil]
    simp only [List.isEmpty_nil, if_true]

/-- A page with one `<div class="content">` element. -/
def divContentPage : HtmlPage :=
  { titleText := some "T"
    body := [{ tag := "div", classes := ["content"], text := "hello  world" }] }

theorem extractContent_selection_w :
    (∃ e ∈ divContentPage.body.filter (fun e => !(removedTags.contains e.tag)),
        IsContentMatch e)
      ∧ (extractContent (fun _ => FetchOutcome.success divContentPage)
          "https://x.com/").2 = String.mk ((collapse (joinTexts
            ((divContentPage.body.filter (fun e => !(removedTags.contains e.tag))).filter
              (fun e => decide (IsContentMatch e)))).data).take 3000) :=
  ⟨by decide,
    (extractContent_selection _ "https://x.com/" divContentPage rfl).1 (by decide)⟩

/-! ### C6 — offline summarizer citations -/

theorem hasSub_infix (pat l x y : List Char) (h : l = x ++ (pat ++ y)) :
    hasSub pat l = true := h ▸ hasSub_decomp pat x y

theorem bulletLines_decomp (query : String) :
    ∀ (srcs : List Source) (k i : Nat) (h : i < srcs.length),
      ∃ x y : List Char, (bulletLines query k srcs).data
        = x ++ ((bulletLine query (k + i) (srcs.get ⟨i, h⟩)).data ++ y) := by
  intro srcs
  induction srcs with
  | nil => intro k i h; simp at h
  | cons s tl ih =>
    intro k i h
    match i with
    | 0 =>
      refine ⟨[], (bulletLines query (k + 1) tl).data, ?_⟩
      have hb : bulletLines query k (s :: tl)
          = bulletLine query k s ++ bulletLines query (k + 1) tl := rfl
      rw [hb, data_append]
      simp
    | i' + 1 =>
      have hi' : i' < tl.length := by
        have := h
        simp only [List.length_cons] at this
        omega
      obtain ⟨x, y, hxy⟩ := ih (k + 1) i' hi'
      refine ⟨(bulletLine query k s).data ++ x, y, ?_⟩
      have hb : bulletLines query k (s :: tl)
          = bulletLine query k s ++ bulletLines query (k + 1) tl := rfl
      have hidx : k + (i' + 1) = k + 1 + i' := by omega
      have hget : (s :: tl).get ⟨i' + 1, h⟩ = tl.get ⟨i', hi'⟩ := rfl
      rw [hb, data_append, hxy, hidx, hget]
      simp [List.append_assoc]

/-- C6 as stated is false: a source title that itself contains marker text
adds an extra citation marker, so the output holds two markers (one of them
`2 > len(sources) = 1`) for a single source. -/
theorem generateSummary_cex_c6 :
    markers (generateSummary ⟨none, none⟩ downWorld
        [{ title := "[Source 2]", url := "u", content := "c" }] "q").data
      = [['2'], ['1']]
      ∧ ([{ title := "[Source 2]", url := "u", content := "c" }]
          : List Source).length = 1 := by
  decide

/-- C6 amended: for a non-empty source list whose titles, and a query, that
contain no `[` character, the offline summarizer's output contains exactly
`len(sources)` markers, namely `[Source 1] .. [Source len]` in order with no
gaps or repeats, and contains the bullet line of every source. -/
theorem generateSummary_offline_markers (agent : Agent) (w : World)
    (sources : List Source) (query : String)
    (hk : agent.openaiKey = none) (hne : sources ≠ [])
    (hq : '[' ∉ query.data) (ht : ∀ s ∈ sources, '[' ∉ s.title.data) :
    markers (generateSummary agent w sources query).data
        = (List.range sources.length).map (fun j => (natRepr (j + 1)).data)
      ∧ ∀ i (h : i < sources.length),
          hasSub (bulletLine query i (sources.get ⟨i, h⟩)).data
            (generateSummary agent w sources query).data = true := by
  rw [generateSummary_no_key agent w sources query hk hne]
  refine ⟨markers_offlineSummary sources query hq ht, ?_⟩
  intro i h
  obtain ⟨x, y, hxy⟩ := bulletLines_decomp query sources 0 i h
  rw [Nat.zero_add] at hxy
  apply hasSub_infix _ _
    ("Based on the search for '".data ++ (query.data
      ++ ("', here are the key findings:\n\n".data ++ x)))
    (y ++ ("\nThese sources provide various perspectives on ".data
      ++ (query.data ++ ".".data)))
  simp only [offlineSummary, data_append, List.append_assoc, hxy]

theorem generateSummary_offline_markers_w :
    ('[' ∉ ("q" : String).data)
      ∧ markers (generateSummary ⟨none, none⟩ downWorld
          [{ title := "TitleA", url := "u", content := "c" }] "q").data
        = (List.range ([{ title := "TitleA", url := "u", content := "c" }]
            : List Source).length).map (fun j => (natRepr (j + 1)).data) :=
  ⟨by decide,
    (generateSummary_offline_markers ⟨none, none⟩ downWorld
      [{ title := "TitleA", url := "u", content := "c" }] "q"
      rfl (by decide) (by decide) (by decide)).1⟩

/-! ### C7 — empty-result terminal states -/

/-- C7: if the search stage yields `[]`, `research` returns the fixed
"no results" outcome, and the result does not depend on the fetch or
completion oracles (formalising that neither extraction nor summarization is
invoked); independently, the summarizer maps an empty source list to the
fixed "nothing to summarize" message for every agent and world. -/
theorem research_empty_search (agent : Agent) (w w' : World) (query : String)
    (hs : w'.search = w.search) (h : searchWeb agent w query 3 = []) :
    research agent w query = { summary := "No search results found.", sources := [] }
      ∧ research agent w' query = research agent w query
      ∧ ∀ (a : Agent) (w'' : World) (q : String),
          generateSummary a w'' [] q = "No content available to summarize." := by
  have hsw' : searchWeb agent w' query 3 = searchWeb agent w query 3 := by
    unfold searchWeb
    cases hk : agent.searchKey with
    | none => rfl
    | some k => rw [hs]
  have h1 : research agent w query
      = { summary := "No search results found.", sources := [] } := by
    unfold research
    rw [h]
    simp
  have h2 : research agent w' query
      = { summary := "No search results found.", sources := [] } := by
    unfold research
    rw [hsw', h]
    simp
  exact ⟨h1, by rw [h1, h2], fun a w'' q => rfl⟩

theorem research_empty_search_w :
    searchWeb ⟨some "k", none⟩ emptySearchWorld "q" 3 = []
      ∧ research ⟨some "k", none⟩ emptySearchWorld "q"
        = { summary := "No search results found.", sources := [] } :=
  ⟨rfl, (research_empty_search ⟨some "k", none⟩ emptySearchWorld
    emptySearchWorldAlt "q" rfl rfl).1⟩

/-! ### C8 — one source per search result, positionally -/

/-- C8: with a non-empty search stage, the sources list has exactly one
entry per search result, at the same index: entry `i` carries the url of
result `i`, the extracted content for that url, and the extracted title with
fallback to the result's title when extraction yields an empty one. -/
theorem research_sources_correspond (agent : Agent) (w : World) (query : String)
    (h : searchWeb agent w query 3 ≠ []) :
    (research agent w query).sources.length = (searchWeb agent w query 3).length
      ∧ ∀ i : Nat, (research agent w query).sources.get? i
          = ((searchWeb agent w query 3).get? i).map (fun r =>
              { title := if (extractContent w.fetch r.url).1 = ""
                  then r.title else (extractContent w.fetch r.url).1
                url := r.url
                content := (extractContent w.fetch r.url).2 }) := by
  rw [research_nonempty agent w query h]
  dsimp only
  constructor
  · rw [List.length_map]
  · intro i
    rw [List.get?_map]
    rfl

theorem research_sources_correspond_w :
    searchWeb ⟨none, none⟩ downWorld "q" 3 ≠ []
      ∧ (research ⟨none, none⟩ downWorld "q").sources.length
        = (searchWeb ⟨none, none⟩ downWorld "q" 3).length :=
  ⟨by decide, (research_sources_correspond ⟨none, none⟩ downWorld "q" (by decide)).1⟩

/-! ### C9 — offline determinism -/

/-- C9: in offline mode (no credentials) the outcome of `research` is a pure
function of the query and the fetch responses: any two worlds that agree on
`fetch` — regardless of their search or completion behaviour, and hence with
no time-based or random variation — produce identical `ResearchOutcome`
values, so repeated runs with the same responses are byte-identical. -/
theorem research_offline_deterministic (w w' : World) (query : String)
    (hf : w.fetch = w'.fetch) :
    research ⟨none, none⟩ w query = research ⟨none, none⟩ w' query := by
  have hne : searchWeb ⟨none, none⟩ w query 3 ≠ [] :=
    searchWeb_offline_ne_nil ⟨none, none⟩ w query rfl
  have hne' : searchWeb ⟨none, none⟩ w' query 3 ≠ [] :=
    searchWeb_offline_ne_nil ⟨none, none⟩ w' query rfl
  rw [research_nonempty _ w query hne, research_nonempty _ w' query hne']
  have hsw : searchWeb ⟨none, none⟩ w' query 3 = searchWeb ⟨none, none⟩ w query 3 := rfl
  rw [hsw, ← hf]
  congr 1

theorem research_offline_deterministic_w :
    downWorld.fetch = downWorldAlt.fetch
      ∧ research ⟨none, none⟩ downWorld "q" = research ⟨none, none⟩ downWorldAlt "q" :=
  ⟨rfl, research_offline_deterministic downWorld downWorldAlt "q" rfl⟩

/-! ### C10 — no query validation -/

/-- C10: `research` applies no validation to its query: for every query
string, the empty string included, the offline pipeline returns a well-formed
outcome with exactly 3 placeholder-derived sources whose urls are the
placeholder urls. -/
theorem research_no_validation (w : World) (q : String) :
    (research ⟨none, none⟩ w q).sources.length = 3
      ∧ ∀ i : Nat, i < 3 → ((research ⟨none, none⟩ w q).sources.get? i).map Source.url
          = some ("https://example" ++ natRepr (i + 1) ++ ".com/article") := by
  have hne : searchWeb ⟨none, none⟩ w q 3 ≠ [] :=
    searchWeb_offline_ne_nil ⟨none, none⟩ w q rfl
  rw [research_nonempty _ w q hne]
  dsimp only
  rw [searchWeb_no_key ⟨none, none⟩ w q 3 rfl]
  constructor
  · simp
  · intro i hi
    rw [List.get?_map, List.get?_map]
    rw [List.get?_eq_getElem?, List.getElem?_range (by simpa using hi)]
    rfl

theorem research_no_validation_w :
    (research ⟨none, none⟩ downWorld "").sources.length = 3
      ∧ ((research ⟨none, none⟩ downWorld "").sources.get? 2).map Source.url
        = some ("https://example" ++ natRepr 3 ++ ".com/article") :=
  ⟨(research_no_validation downWorld "").1,
    (research_no_validation downWorld "").2 2 (by decide)⟩

/-! ### C1 — citation markers within range -/

/-- C1 as stated is false even offline: the query text flows verbatim into
the fallback summary, so a query that itself contains `[Source 99]` makes
the summary carry a marker whose number exceeds the 3 sources (and the live
completion output is likewise returned without validation). -/
theorem research_cex_c1 :
    (research ⟨none, none⟩ downWorld "[Source 99]").sources.length = 3
      ∧ ['9', '9'] ∈ markers (research ⟨none, none⟩ downWorld "[Source 99]").summary.data
      ∧ ∀ n : Nat, n ≤ 3 → (natRepr n).data ≠ ['9', '9'] := by
  decide

/-- C1 amended: in offline mode, provided the query and all produced source
titles contain no `[` character, every citation marker in the summary is
`[Source n]` with `1 ≤ n ≤ len(sources)`.  (The live completion provider's
output is returned without any validation, so no bound holds there.) -/
theorem research_offline_citations (w : World) (query : String)
    (hq : '[' ∉ query.data)
    (ht : ∀ s ∈ (research ⟨none, none⟩ w query).sources, '[' ∉ s.title.data) :
    ∀ d ∈ markers (research ⟨none, none⟩ w query).summary.data,
      ∃ n, 1 ≤ n ∧ n ≤ (research ⟨none, none⟩ w query).sources.length
        ∧ d = (natRepr n).data := by
  have hne : searchWeb ⟨none, none⟩ w query 3 ≠ [] :=
    searchWeb_offline_ne_nil ⟨none, none⟩ w query rfl
  rw [research_nonempty _ w query hne] at ht ⊢
  dsimp only at ht ⊢
  have hmne : (searchWeb ⟨none, none⟩ w query 3).map (mkSource w.fetch) ≠ [] := by
    rw [ne_eq, List.map_eq_nil_iff]
    exact hne
  rw [generateSummary_no_key ⟨none, none⟩ w _ query rfl hmne]
  intro d hd
  rw [markers_offlineSummary _ query hq ht, List.mem_map] at hd
  obtain ⟨j, hj, rfl⟩ := hd
  have hjlen : j < ((searchWeb ⟨none, none⟩ w query 3).map (mkSource w.fetch)).length :=
    List.mem_range.mp hj
  exact ⟨j + 1, by omega, by omega, rfl⟩

theorem research_offline_citations_w :
    ('[' ∉ ("quantum" : String).data)
      ∧ ∀ d ∈ markers (research ⟨none, none⟩ downWorld "quantum").summary.data,
          ∃ n, 1 ≤ n ∧ n ≤ (research ⟨none, none⟩ downWorld "quantum").sources.length
            ∧ d = (natRepr n).data :=
  ⟨by decide, research_offline_citations downWorld "quantum" (by decide) (by decide)⟩

end ResearchMVP
